import Mathlib

/-!
Verification development for the eduhub MongoDB seeding script
(`src/eduhub_mongodb_project.py`).  The script's helper functions
(`get_next_id`, `load_json_file`, `create_collection_with_schema`,
`read_document`, `create_document`, `create_documents`, `update_document`,
`delete_document`) and its aggregation pipelines are shallowly embedded
below; MongoDB collections are lists of documents, documents are
association lists of field names to BSON-like values, and the database
calls that can raise are modelled with an explicit injected failure
(`fail : Option PyErr`) standing for an exception raised by the driver
call before any write takes effect.
-/

namespace EduHub

/-- BSON-like field values: the script's documents store null, booleans,
integers, strings and datetimes (datetimes are modelled as tick counts).
Nested documents and arrays are never inspected by the operations
modelled here, so they are omitted. -/
inductive Value where
  | vNull : Value
  | vBool : Bool → Value
  | vInt : Int → Value
  | vStr : String → Value
  | vTime : Nat → Value
deriving DecidableEq, Repr

/-- A MongoDB document: an association list from field names to values. -/
abbrev Doc := List (String × Value)

/-- Read a field of a document (`doc[field]` / `field in doc`). -/
def getField (d : Doc) (k : String) : Option Value :=
  (d.find? (fun p => p.1 = k)).map (fun p => p.2)

/-- Write a field of a document, as `$set` does: replace the field when
present, append it otherwise. -/
def setField : Doc → String → Value → Doc
  | [], k, v => [(k, v)]
  | (k', v') :: rest, k, v =>
      if k' = k then (k, v) :: rest else (k', v') :: setField rest k v

/-- The Python exceptions relevant to the script: `FileNotFoundError`
and `json.JSONDecodeError` (from `load_json_file`), `TypeError` (from
`+ 1` on a non-numeric value in `get_next_id`), `CollectionInvalid`
(from `create_collection` on an existing collection), `DuplicateKeyError`
/ `BulkWriteError` (from unique-index violations) and a generic
driver/connection failure. -/
inductive PyErr where
  | fileNotFound : PyErr
  | jsonDecode : PyErr
  | typeError : PyErr
  | collectionInvalid : PyErr
  | duplicateKey : PyErr
  | connectionFailure : PyErr
deriving DecidableEq, Repr

/-! ### `load_json_file` (source lines 66–87)

The body opens the file and parses it; the only handler is
`except FileNotFoundError`, which prints a message and returns `None`.
Its input is modelled as the outcome of the open-and-parse body: parsed
data on success, or the exception it raised. -/

/-- `load_json_file`: returns the parsed data, returns `none` (printing
a message) when the body raised `FileNotFoundError`, and propagates any
other exception, which has no handler. -/
def load_json_file (fileResult : Except PyErr Value) : Except PyErr (Option Value) :=
  match fileResult with
  | .ok data => .ok (some data)
  | .error .fileNotFound => .ok none
  | .error e => .error e

/-! ### `get_next_id` (source lines 30–63) -/

/-- BSON type rank used by MongoDB when sorting mixed-type values:
null < numbers < strings < booleans < dates. -/
def typeRank : Value → Nat
  | .vNull => 0
  | .vInt _ => 1
  | .vStr _ => 2
  | .vBool _ => 3
  | .vTime _ => 4

/-- Strict BSON ordering on values: compare type ranks first, then
compare within the type. -/
def bsonLt (a b : Value) : Bool :=
  if typeRank a = typeRank b then
    match a, b with
    | .vInt m, .vInt n => m < n
    | .vStr s, .vStr t => s < t
    | .vBool x, .vBool y => !x && y
    | .vTime s, .vTime t => s < t
    | _, _ => false
  else typeRank a < typeRank b

/-- The sort key of a document for `sort=[(field, -1)]`: a missing
field sorts as null. -/
def sortKey (field : String) (d : Doc) : Value :=
  (getField d field).getD .vNull

/-- `collection.find_one(sort=[(field, -1)])`: the document whose
`field` value is maximal in the BSON order (the first such document
when several are tied), or `none` on an empty collection. -/
def find_one_sort_desc (field : String) (state : List Doc) : Option Doc :=
  state.foldl
    (fun best d =>
      match best with
      | none => some d
      | some b => if bsonLt (sortKey field b) (sortKey field d) then some d else some b)
    none

/-- Python `v + 1` on a document field value: defined on integers and
booleans (Python booleans are integers), a `TypeError` otherwise. -/
def pyAddOne : Value → Except PyErr Int
  | .vInt n => .ok (n + 1)
  | .vBool b => .ok ((if b then 1 else 0) + 1)
  | _ => .error .typeError

/-- The `try` body of `get_next_id`: fetch the first document in
descending `field` order; if it exists and contains `field`, return the
value plus one, otherwise return 1. -/
def getNextIdBody (state : List Doc) (field : String) : Except PyErr Int :=
  match find_one_sort_desc field state with
  | none => .ok 1
  | some last =>
    match getField last field with
    | some v => pyAddOne v
    | none => .ok 1

/-- The body of `get_next_id` together with the injected driver
failure: `fail = some e` stands for the `find_one` call raising `e`. -/
def getNextIdCall (fail : Option PyErr) (state : List Doc) (field : String) :
    Except PyErr Int :=
  match fail with
  | some e => .error e
  | none => getNextIdBody state field

/-- `get_next_id`: the next available id, or `None` when any exception
occurred (caught by `except Exception`, which prints and returns `None`). -/
def get_next_id (fail : Option PyErr) (state : List Doc) (field : String) :
    Option Int :=
  match getNextIdCall fail state field with
  | .ok n => some n
  | .error _ => none

/-! ### Unique indexes (source lines 314–345)

The index-creation section makes `userId`, `enrollmentId`,
`(courseId, studentId)`, `lessonId`, `assignmentId` and `submissionId`
unique.  Enforcement happens inside MongoDB, not in the script, so it is
modelled from the documented semantics the script's comments rely on
("prevents inserting two users with the same ID"): an insert or update
that would duplicate an indexed key fails with a duplicate-key error.
A unique index is a key function on documents; a compound index maps a
document to the list of its component values. -/

/-- Insert one document into a collection carrying the unique indexes
`keys`: fails with a duplicate-key error when some index key of the new
document already occurs, otherwise appends the document. -/
def insertOneUnique {α κ : Type} [DecidableEq κ] (keys : List (α → κ))
    (state : List α) (d : α) : Except PyErr (List α) :=
  if keys.any (fun k => state.any (fun e => k e = k d)) then .error .duplicateKey
  else .ok (state ++ [d])

/-- `insert_many` (ordered, the pymongo default) against unique indexes:
documents are inserted one by one; the first duplicate-key failure stops
the operation, keeping the documents inserted so far, and reports
failure (`BulkWriteError`). -/
def insertManyUnique {α κ : Type} [DecidableEq κ] (keys : List (α → κ)) :
    List α → List α → List α × Bool
  | state, [] => (state, true)
  | state, d :: rest =>
    match insertOneUnique keys state d with
    | .ok s => insertManyUnique keys s rest
    | .error _ => (state, false)

/-- `update_many` against unique indexes: matching documents are
rewritten one by one; rewriting a document so that an index key would
collide with any other document stops the operation with an error,
keeping the updates already applied.  `done` is the processed prefix. -/
def updateManyUniqueAux {α κ : Type} [DecidableEq α] [DecidableEq κ] (keys : List (α → κ))
    (q : α → Bool) (u : α → α) : List α → List α → List α × Bool
  | done, [] => (done, true)
  | done, d :: rest =>
    if q d then
      if decide (u d ≠ d) &&
          keys.any (fun k =>
            done.any (fun e => k e = k (u d)) || rest.any (fun e => k e = k (u d))) then
        (done ++ d :: rest, false)
      else updateManyUniqueAux keys q u (done ++ [u d]) rest
    else updateManyUniqueAux keys q u (done ++ [d]) rest

/-- `update_many` against unique indexes, starting from the whole
collection. -/
def updateManyUnique {α κ : Type} [DecidableEq α] [DecidableEq κ] (keys : List (α → κ))
    (q : α → Bool) (u : α → α) (state : List α) : List α × Bool :=
  updateManyUniqueAux keys q u [] state

/-- The uniqueness invariant guaranteed by a family of unique indexes:
no two documents of the collection share a key of any of the indexes. -/
def uniqueInvariant {α κ : Type} (keys : List (α → κ)) (state : List α) : Prop :=
  ∀ k ∈ keys, (state.map k).Nodup

/-- The unique index on `user` (line 325): `userId`.  A document missing
the indexed field is indexed under null, as MongoDB does. -/
def userIndexKeys : List (Doc → List Value) :=
  [fun d => [(getField d "userId").getD .vNull]]

/-- The unique indexes on `enrollment` (lines 329–333): `enrollmentId`,
and the compound `(courseId, studentId)`. -/
def enrollmentIndexKeys : List (Doc → List Value) :=
  [fun d => [(getField d "enrollmentId").getD .vNull],
   fun d => [(getField d "courseId").getD .vNull, (getField d "studentId").getD .vNull]]

/-- The unique index on `lesson` (line 337): `lessonId`. -/
def lessonIndexKeys : List (Doc → List Value) :=
  [fun d => [(getField d "lessonId").getD .vNull]]

/-- The unique index on `assignment` (line 341): `assignmentId`. -/
def assignmentIndexKeys : List (Doc → List Value) :=
  [fun d => [(getField d "assignmentId").getD .vNull]]

/-- The unique index on `submission` (line 345): `submissionId`. -/
def submissionIndexKeys : List (Doc → List Value) :=
  [fun d => [(getField d "submissionId").getD .vNull]]

/-! ### CRUD wrappers (source lines 130–250)

Each wrapper is a `try` body (a database call, modelled with its
in-memory semantics plus an injected failure `fail : Option PyErr`
standing for the call raising before any write) followed by
`except Exception`, which prints and returns the sentinel.  Each
wrapper's result pairs the collection state after the call with the
function's Python return value. -/

/-- The `collection.find(filter)` call of `read_document`. -/
def findCall (fail : Option PyErr) (state : List Doc) (q : Doc → Bool) :
    Except PyErr (List Doc) :=
  match fail with
  | some e => .error e
  | none => .ok (state.filter q)

/-- `read_document`: the list of matching documents, or `[]` when the
call raised (caught, printed). -/
def read_document (fail : Option PyErr) (state : List Doc) (q : Doc → Bool) :
    List Doc :=
  match findCall fail state q with
  | .ok result => result
  | .error _ => []

/-- The `collection.insert_one(document)` call of `create_document`,
checked against the collection's unique indexes. -/
def insertOneCall {α κ : Type} [DecidableEq κ] (fail : Option PyErr)
    (keys : List (α → κ)) (state : List α) (d : α) : Except PyErr (List α) :=
  match fail with
  | some e => .error e
  | none => insertOneUnique keys state d

/-- `create_document`: inserts one document; returns the new state and
`str(result.inserted_id)` (the driver-generated object id `oid`), or
the unchanged state and `None` when the call raised (caught, printed). -/
def create_document {α κ : Type} [DecidableEq κ] (fail : Option PyErr)
    (keys : List (α → κ)) (oid : Nat) (state : List α) (d : α) :
    List α × Option String :=
  match insertOneCall fail keys state d with
  | .ok s => (s, some (toString oid))
  | .error _ => (state, none)

/-- `create_documents`: inserts many documents; on success returns the
stringified inserted ids, and on a raised exception (including a
`BulkWriteError` after a partial ordered insert) returns `[]` with the
state the insert reached. -/
def create_documents {α κ : Type} [DecidableEq κ] (fail : Option PyErr)
    (keys : List (α → κ)) (oids : List Nat) (state : List α) (docs : List α) :
    List α × List String :=
  match fail with
  | some _ => (state, [])
  | none =>
    match insertManyUnique keys state docs with
    | (s, true) => (s, oids.map toString)
    | (s, false) => (s, [])

/-- `collection.update_many(filter, update)` on an unindexed collection:
rewrites every matching document and counts, as `modified_count` does,
only the documents the update actually changed. -/
def updateMany (state : List Doc) (q : Doc → Bool) (u : Doc → Doc) :
    List Doc × Nat :=
  ((state.map fun d => if q d then u d else d),
   (state.filter fun d => q d && decide (u d ≠ d)).length)

/-- The `update_many` call of `update_document` / `delete_document`,
with the injected failure. -/
def updateManyCall (fail : Option PyErr) (state : List Doc) (q : Doc → Bool)
    (u : Doc → Doc) : Except PyErr (List Doc × Nat) :=
  match fail with
  | some e => .error e
  | none => .ok (updateMany state q u)

/-- `update_document`: applies the update to every matching document and
returns `modified_count`; returns 0 with the state unchanged when the
call raised (caught, printed). -/
def update_document (fail : Option PyErr) (state : List Doc) (q : Doc → Bool)
    (u : Doc → Doc) : List Doc × Nat :=
  match updateManyCall fail state q u with
  | .ok r => r
  | .error _ => (state, 0)

/-- The `$set` payload of `delete_document`: mark the document inactive
and refresh its `updatedAt` timestamp (`now` is `datetime.now()`). -/
def softDeleteDoc (now : Nat) (d : Doc) : Doc :=
  setField (setField d "isActive" (.vBool false)) "updatedAt" (.vTime now)

/-- `delete_document`: a soft delete via `update_many` with the
`softDeleteDoc` payload; returns `modified_count`, or 0 with the state
unchanged when the call raised (caught, printed). -/
def delete_document (fail : Option PyErr) (state : List Doc) (q : Doc → Bool)
    (now : Nat) : List Doc × Nat :=
  match updateManyCall fail state q (softDeleteDoc now) with
  | .ok r => r
  | .error _ => (state, 0)

/-! ### `create_collection_with_schema` (source lines 90–118) -/

/-- The `db.create_collection(name, validator=..., ...)` call: raises
`CollectionInvalid` when a collection of that name already exists
(pymongo's documented behaviour, which the wrapper's `except` relies
on), otherwise registers the collection with its validator.  The
database is a list of (collection name, validator) pairs. -/
def createCollectionCall {σ : Type} (fail : Option PyErr)
    (dbCols : List (String × σ)) (name : String) (validator : σ) :
    Except PyErr (List (String × σ)) :=
  match fail with
  | some e => .error e
  | none =>
    if dbCols.any (fun c => c.1 = name) then .error .collectionInvalid
    else .ok (dbCols ++ [(name, validator)])

/-- `create_collection_with_schema`: `true` after a successful creation,
`false` with the database unchanged when the call raised (caught,
printed). -/
def create_collection_with_schema {σ : Type} (fail : Option PyErr)
    (dbCols : List (String × σ)) (name : String) (validator : σ) :
    List (String × σ) × Bool :=
  match createCollectionCall fail dbCols name validator with
  | .ok s => (s, true)
  | .error _ => (dbCols, false)

/-! ### Aggregation pipelines (source lines 1619–1682)

Both pipelines end in `$group` with `$avg` followed by
`$sort: {average…: -1}`.  `$group` emits one output document per
distinct key among its input documents; `$avg` is the arithmetic mean
of the grouped numeric values (all grouped values are numeric here);
`$sort … -1` orders the outputs by the average, largest first.
Averages are modelled in `ℚ`. -/

/-- `$avg` over a group's values: their sum divided by their count. -/
def avgOf (l : List ℚ) : ℚ := l.sum / l.length

/-- `$group: {_id: key, avg: {$avg: val}}`: one output per distinct key
occurring in the input, carrying the mean of `val` over the documents
with that key. -/
def groupAvg {α κ : Type} [DecidableEq κ] (key : α → κ) (val : α → ℚ)
    (l : List α) : List (κ × ℚ) :=
  (l.map key).dedup.map fun k => (k, avgOf ((l.filter fun a => key a = k).map val))

/-- The `$sort: {average…: -1}` order: larger averages first. -/
def byAvgDesc {κ : Type} (a b : κ × ℚ) : Prop := b.2 ≤ a.2

instance {κ : Type} : DecidableRel (@byAvgDesc κ) :=
  fun a b => inferInstanceAs (Decidable (b.2 ≤ a.2))

instance {κ : Type} : IsTotal (κ × ℚ) byAvgDesc :=
  ⟨fun a b => le_total b.2 a.2⟩

instance {κ : Type} : IsTrans (κ × ℚ) byAvgDesc :=
  ⟨fun _ _ _ hab hbc => le_trans hbc hab⟩

/-- `$sort: {average…: -1}` on the `$group` output. -/
def sortByAvgDesc {κ : Type} (l : List (κ × ℚ)) : List (κ × ℚ) :=
  l.insertionSort byAvgDesc

/-- A `$group`-with-`$avg` stage followed by the descending `$sort`:
the common tail of both pipelines. -/
def sortedGroupAvg {α κ : Type} [DecidableEq κ] (key : α → κ) (val : α → ℚ)
    (l : List α) : List (κ × ℚ) :=
  sortByAvgDesc (groupAvg key val l)

/-- The fields of an enrollment document used by the student-performance
pipeline. -/
structure Enrollment where
  enrollmentId : Int
  studentId : Int
deriving DecidableEq, Repr

/-- The fields of a submission document used by the student-performance
pipeline. -/
structure Submission where
  enrollmentId : Int
  grade : ℚ
deriving DecidableEq, Repr

/-- The `$lookup` stage (lines 1658–1665): the submissions whose
`enrollmentId` equals the enrollment's `enrollmentId`, collected into
the `submissions` array of the enrollment. -/
def lookupSubmissions (subs : List Submission) (e : Enrollment) : List Submission :=
  subs.filter fun s => s.enrollmentId = e.enrollmentId

/-- The `$unwind: "$submissions"` stage (line 1668) applied to the
`$lookup` output: one document per (enrollment, joined submission)
pair; enrollments whose `submissions` array is empty are dropped. -/
def joinedPairs (enrs : List Enrollment) (subs : List Submission) :
    List (Enrollment × Submission) :=
  enrs.flatMap fun e => (lookupSubmissions subs e).map fun s => (e, s)

/-- The student-performance pipeline (lines 1652–1682): `$lookup` of
submissions on `enrollmentId`, `$unwind`, `$group` by `studentId` with
`$avg` of `submissions.grade`, `$sort` by `averageGrade` descending. -/
def studentPerformancePipeline (enrs : List Enrollment) (subs : List Submission) :
    List (Int × ℚ) :=
  sortedGroupAvg (fun p => p.1.studentId) (fun p => p.2.grade) (joinedPairs enrs subs)

/-- The grades of all submissions joined to a given student's
enrollments (the specification-side multiset behind `averageGrade`). -/
def joinedGrades (enrs : List Enrollment) (subs : List Submission) (sid : Int) :
    List ℚ :=
  ((joinedPairs enrs subs).filter fun p => p.1.studentId = sid).map fun p => p.2.grade

/-- The fields of a course document used by the course-rating pipeline. -/
structure Course where
  category : String
  reviewRate : ℚ
deriving DecidableEq, Repr

/-- The course-rating pipeline (lines 1619–1639): `$group` by
`category` with `$avg` of `reviewRate`, `$sort` by `averageRating`
descending. -/
def courseRatingPipeline (courses : List Course) : List (String × ℚ) :=
  sortedGroupAvg Course.category Course.reviewRate courses

/-- The review rates of all courses in a given category (the
specification-side multiset behind `averageRating`). -/
def categoryRates (courses : List Course) (cat : String) : List ℚ :=
  (courses.filter fun c => c.category = cat).map Course.reviewRate

/-! ### The seed dataset (source lines 350–1118)

Only the fields covered by the unique indexes matter for the seeding
claims, so each seed list is projected onto those fields, in source
order. -/

/-- The `userId` fields of the 32 documents of `users_data`
(lines 350–448), in order. -/
def users_data_userIds : List Int :=
  [1, 2, 3, 4, 5, 6, 7, 8, 9, 10, 11, 12, 13, 14, 15, 16,
   17, 18, 19, 20, 21, 22, 23, 24, 25, 26, 27, 28, 29, 30, 31, 32]

/-- The indexed fields of an enrollment seed document. -/
structure EnrollmentSeed where
  enrollmentId : Int
  courseId : Int
  studentId : Int
deriving DecidableEq, Repr

/-- The `(enrollmentId, courseId, studentId)` fields of the 32 documents
of `enrollments_data` (lines 527–1008), in order. -/
def enrollments_data : List EnrollmentSeed :=
  [⟨1, 1, 1⟩, ⟨2, 2, 2⟩, ⟨3, 3, 3⟩, ⟨4, 1, 4⟩, ⟨5, 4, 5⟩, ⟨6, 2, 6⟩,
   ⟨7, 5, 7⟩, ⟨8, 3, 8⟩, ⟨9, 6, 9⟩, ⟨10, 4, 10⟩, ⟨11, 5, 11⟩, ⟨12, 6, 12⟩,
   ⟨13, 7, 13⟩, ⟨14, 7, 14⟩, ⟨15, 8, 15⟩, ⟨16, 8, 16⟩, ⟨17, 9, 6⟩, ⟨18, 9, 8⟩,
   ⟨19, 10, 13⟩, ⟨20, 10, 21⟩, ⟨21, 11, 21⟩, ⟨22, 11, 22⟩, ⟨23, 12, 23⟩,
   ⟨24, 12, 24⟩, ⟨25, 13, 25⟩, ⟨26, 13, 26⟩, ⟨27, 14, 27⟩, ⟨28, 14, 28⟩,
   ⟨29, 15, 29⟩, ⟨30, 15, 30⟩, ⟨31, 16, 31⟩, ⟨32, 16, 32⟩]

/-- The `lessonId` fields of the 40 documents of `lessons_data`
(lines 1014–1055), in order. -/
def lessons_data_lessonIds : List Int :=
  [1, 2, 3, 4, 5, 6, 7, 8, 9, 10, 11, 12, 13, 14, 15, 16, 17, 18, 19, 20,
   21, 22, 23, 24, 25, 26, 27, 28, 29, 30, 31, 32, 33, 34, 35, 36, 37, 38, 39, 40]

/-- The `assignmentId` fields of the 15 documents of `assignments_data`
(lines 1061–1077), in order. -/
def assignments_data_assignmentIds : List Int :=
  [1, 2, 3, 4, 5, 6, 7, 8, 9, 10, 11, 12, 13, 14, 15]

/-- The `submissionId` fields of the 20 documents of `submissions_data`
(lines 1083–1104), in order. -/
def submissions_data_submissionIds : List Int :=
  [1, 2, 3, 4, 5, 6, 7, 8, 9, 10, 11, 12, 13, 14, 15, 16, 17, 18, 19, 20]

/-- The unique indexes on `user`, `lesson`, `assignment` and
`submission`, expressed on the id projection of their seed documents:
the single indexed field itself. -/
def singleIdSeedKeys : List (Int → List Int) := [fun i => [i]]

/-- The unique indexes on `enrollment`, expressed on the projected seed
documents: `enrollmentId`, and the compound `(courseId, studentId)`. -/
def enrollmentSeedKeys : List (EnrollmentSeed → List Int) :=
  [fun e => [e.enrollmentId], fun e => [e.courseId, e.studentId]]

/-! ## Theorems -/

/-- Reading the field just written by `$set` yields the new value. -/
theorem getField_setField_self (d : Doc) (k : String) (v : Value) :
    getField (setField d k v) k = some v := by
  induction d with
  | nil => simp [getField, setField]
  | cons p rest ih =>
    obtain ⟨k', v'⟩ := p
    by_cases h : k' = k
    · simp [setField, h, getField]
    · simpa [setField, h, getField] using ih

/-- `$set` on one field leaves every other field unchanged. -/
theorem getField_setField_ne (d : Doc) {k k' : String} (h : k' ≠ k) (v : Value) :
    getField (setField d k v) k' = getField d k' := by
  induction d with
  | nil => simp [getField, setField, Ne.symm h]
  | cons p rest ih =>
    obtain ⟨k₀, v₀⟩ := p
    by_cases h₀ : k₀ = k
    · subst h₀
      simp [setField, getField, Ne.symm h]
    · simp only [setField, if_neg h₀]
      by_cases h₁ : k₀ = k'
      · simp [getField, h₁]
      · simpa [getField, h₁] using ih

/-- C1 (counterexample): the claim says every helper returns its
sentinel whenever any exception is raised in its body; but when the
body of `load_json_file` raises a JSON parse error, the function
propagates it instead of returning its sentinel `None`. -/
theorem c1_counterexample :
    load_json_file (Except.error PyErr.jsonDecode) = Except.error PyErr.jsonDecode ∧
    load_json_file (Except.error PyErr.jsonDecode) ≠ Except.ok none :=
  ⟨rfl, fun h => Except.noConfusion h⟩

/-- C1 (amended): each of the seven database helpers (`get_next_id`,
`create_collection_with_schema`, `read_document`, `create_document`,
`create_documents`, `update_document`, `delete_document`) catches every
exception raised by its body and returns its sentinel (`None`, `[]`, 0
or `False`) with the collection state unchanged; `load_json_file`
returns its parsed data on success and catches only
`FileNotFoundError` (returning `None`) — any other exception raised in
its body propagates. -/
theorem c1_error_handling :
    (∀ (e : PyErr) (s : List Doc) (f : String), get_next_id (some e) s f = none)
    ∧ (∀ (σ : Type) (e : PyErr) (db : List (String × σ)) (n : String) (v : σ),
        create_collection_with_schema (some e) db n v = (db, false))
    ∧ (∀ (e : PyErr) (s : List Doc) (q : Doc → Bool), read_document (some e) s q = [])
    ∧ (∀ (α κ : Type) (inst : DecidableEq κ) (e : PyErr) (keys : List (α → κ))
        (oid : Nat) (s : List α) (d : α),
        @create_document α κ inst (some e) keys oid s d = (s, none))
    ∧ (∀ (α κ : Type) (inst : DecidableEq κ) (e : PyErr) (keys : List (α → κ))
        (oids : List Nat) (s : List α) (docs : List α),
        @create_documents α κ inst (some e) keys oids s docs = (s, []))
    ∧ (∀ (e : PyErr) (s : List Doc) (q : Doc → Bool) (u : Doc → Doc),
        update_document (some e) s q u = (s, 0))
    ∧ (∀ (e : PyErr) (s : List Doc) (q : Doc → Bool) (now : Nat),
        delete_document (some e) s q now = (s, 0))
    ∧ (∀ (v : Value), load_json_file (.ok v) = .ok (some v))
    ∧ (load_json_file (.error .fileNotFound) = .ok none)
    ∧ (∀ e, e ≠ PyErr.fileNotFound → load_json_file (.error e) = .error e) := by
  refine ⟨fun e s f => rfl, fun σ e db n v => rfl, fun e s q => rfl,
    fun α κ inst e keys oid s d => rfl, fun α κ inst e keys oids s docs => rfl,
    fun e s q u => rfl, fun e s q now => rfl, fun v => rfl, rfl, fun e he => ?_⟩
  cases e with
  | fileNotFound => exact absurd rfl he
  | jsonDecode => rfl
  | typeError => rfl
  | collectionInvalid => rfl
  | duplicateKey => rfl
  | connectionFailure => rfl

/-- C1 (witness): the amended theorem applied at concrete inputs — a
connection failure inside `update_document` yields `(state, 0)`, and a
JSON parse error propagates out of `load_json_file`. -/
theorem c1_witness :
    update_document (some PyErr.connectionFailure) [] (fun _ => true) id = ([], 0)
    ∧ load_json_file (Except.error PyErr.typeError) = Except.error PyErr.typeError :=
  ⟨c1_error_handling.2.2.2.2.2.1 PyErr.connectionFailure [] (fun _ => true) id,
   c1_error_handling.2.2.2.2.2.2.2.2.2 PyErr.typeError (by decide)⟩

/-- C10: `create_collection_with_schema` returns `True` exactly when
the collection did not exist and no exception was injected, in which
case the collection is registered with the given validator; when the
collection already exists the call raises, the function returns `False`
and the database — in particular the existing collection and its
validator — is unchanged. -/
theorem c10_create_collection_with_schema (σ : Type) (fail : Option PyErr)
    (db : List (String × σ)) (name : String) (v : σ) :
    ((create_collection_with_schema fail db name v).2 = true ↔
      fail = none ∧ db.any (fun c => c.1 = name) = false)
    ∧ ((create_collection_with_schema fail db name v).2 = true →
        (create_collection_with_schema fail db name v).1 = db ++ [(name, v)])
    ∧ (db.any (fun c => c.1 = name) = true →
        (create_collection_with_schema fail db name v).2 = false ∧
        (create_collection_with_schema fail db name v).1 = db) := by
  cases fail with
  | some e => simp [create_collection_with_schema, createCollectionCall]
  | none =>
    by_cases h : db.any (fun c => c.1 = name) = true
    · simp [create_collection_with_schema, createCollectionCall, h]
    · simp only [Bool.not_eq_true] at h
      simp [create_collection_with_schema, createCollectionCall, h]

/-- C10 (witness): re-creating the existing `"user"` collection returns
`False` and leaves the database unchanged. -/
theorem c10_witness :
    (create_collection_with_schema (σ := Value) none [("user", Value.vNull)]
        "user" Value.vNull).2 = false ∧
    (create_collection_with_schema (σ := Value) none [("user", Value.vNull)]
        "user" Value.vNull).1 = [("user", Value.vNull)] :=
  (c10_create_collection_with_schema Value none [("user", Value.vNull)]
    "user" Value.vNull).2.2 (by decide)

/-- C9: `update_document` returns `modified_count`, not the matched
count: an update that leaves every matching document unchanged returns
0, a filter that matches no document returns 0, and a raised exception
returns 0 — the three cases are indistinguishable from the return
value. -/
theorem c9_update_document_modified_count (state : List Doc) (q : Doc → Bool)
    (u : Doc → Doc) :
    ((∀ d ∈ state, q d = true → u d = d) → (update_document none state q u).2 = 0)
    ∧ ((∀ d ∈ state, q d = false) → (update_document none state q u).2 = 0)
    ∧ (∀ e, (update_document (some e) state q u).2 = 0) := by
  refine ⟨fun hnoop => ?_, fun hnone => ?_, fun e => rfl⟩
  · simp only [update_document, updateManyCall, updateMany, List.length_eq_zero,
      List.filter_eq_nil_iff]
    intro d hd
    by_cases hq : q d = true
    · simp [hq, hnoop d hd hq]
    · simp only [Bool.not_eq_true] at hq
      simp [hq]
  · simp only [update_document, updateManyCall, updateMany, List.length_eq_zero,
      List.filter_eq_nil_iff]
    intro d hd
    simp [hnone d hd]

/-- C9 (witness): a no-op update matching the single document of the
collection, a non-matching filter, and an injected failure all return
a modified count of 0. -/
theorem c9_witness :
    (update_document none [[("userId", Value.vInt 1)]] (fun _ => true) id).2 = 0
    ∧ (update_document none [[("userId", Value.vInt 1)]] (fun _ => false)
        (fun _ => [])).2 = 0
    ∧ (update_document (some PyErr.connectionFailure) [[("userId", Value.vInt 1)]]
        (fun _ => true) (fun _ => [])).2 = 0 :=
  ⟨(c9_update_document_modified_count [[("userId", Value.vInt 1)]] (fun _ => true) id).1
      (fun _ _ _ => rfl),
   (c9_update_document_modified_count [[("userId", Value.vInt 1)]] (fun _ => false)
      (fun _ => [])).2.1 (fun _ _ => rfl),
   (c9_update_document_modified_count [[("userId", Value.vInt 1)]] (fun _ => true)
      (fun _ => [])).2.2 PyErr.connectionFailure⟩

/-- C8: `get_next_id` returns the highest-sorting document's id plus
one when that document carries an integer id, returns 1 on an empty
collection, returns 1 when the first-sorted document lacks the id
field, and returns `None` exactly when the underlying call raised an
exception (as a non-numeric highest id makes `+ 1` do). -/
theorem c8_get_next_id (fail : Option PyErr) (state : List Doc) (field : String) :
    (∀ (d : Doc) (k : Int), find_one_sort_desc field state = some d →
        getField d field = some (Value.vInt k) →
        get_next_id none state field = some (k + 1))
    ∧ (get_next_id none ([] : List Doc) field = some 1)
    ∧ (∀ d : Doc, find_one_sort_desc field state = some d →
        getField d field = none → get_next_id none state field = some 1)
    ∧ (get_next_id fail state field = none ↔
        ∃ e, getNextIdCall fail state field = Except.error e) := by
  refine ⟨fun d k hfind hget => ?_, rfl, fun d hfind hget => ?_, ?_⟩
  · simp [get_next_id, getNextIdCall, getNextIdBody, hfind, hget, pyAddOne]
  · simp [get_next_id, getNextIdCall, getNextIdBody, hfind, hget]
  · unfold get_next_id
    cases h : getNextIdCall fail state field with
    | ok n => simp [h]
    | error e => simp [h]

/-- C8 (witness): on a collection whose highest `userId` is 7,
`get_next_id` returns 8; on the empty collection it returns 1; and a
`None` result exhibits the exception that caused it. -/
theorem c8_witness :
    get_next_id none [[("userId", Value.vInt 3)], [("userId", Value.vInt 7)]]
        "userId" = some 8
    ∧ get_next_id none ([] : List Doc) "userId" = some 1
    ∧ (get_next_id (some PyErr.connectionFailure) [] "userId" = none ↔
        ∃ e, getNextIdCall (some PyErr.connectionFailure) [] "userId" =
          Except.error e) :=
  ⟨(c8_get_next_id none [[("userId", Value.vInt 3)], [("userId", Value.vInt 7)]]
      "userId").1 [("userId", Value.vInt 7)] 7 (by decide) (by decide),
   (c8_get_next_id none [] "userId").2.1,
   (c8_get_next_id (some PyErr.connectionFailure) [] "userId").2.2.2⟩

/-- Zipping a list with its image under a map pairs each element with
its own image. -/
theorem zip_self_map {α : Type} (l : List α) (g : α → α) :
    l.zip (l.map g) = l.map fun a => (a, g a) := by
  induction l with
  | nil => rfl
  | cons a t ih => simp [ih]

/-- C2: `delete_document` is a soft delete: the collection keeps the
same documents (none is removed — position `i` still holds document
`i`, possibly soft-deleted), every document matching the query ends up
with `isActive = False`, and the return value is the number of
documents the update actually changed. -/
theorem c2_delete_document_soft_delete (state : List Doc) (q : Doc → Bool)
    (now : Nat) :
    ((delete_document none state q now).1.length = state.length)
    ∧ (∀ (i : Nat) (h : i < state.length)
        (h' : i < (delete_document none state q now).1.length),
        q (state.get ⟨i, h⟩) = true →
        getField ((delete_document none state q now).1.get ⟨i, h'⟩) "isActive" =
          some (Value.vBool false))
    ∧ ((delete_document none state q now).2 =
        ((state.zip (delete_document none state q now).1).filter
          (fun p => decide (p.1 ≠ p.2))).length) := by
  refine ⟨?_, fun i h h' hq => ?_, ?_⟩
  · simp [delete_document, updateManyCall, updateMany]
  · rw [List.get_eq_getElem] at hq
    simp only [delete_document, updateManyCall, updateMany, List.get_eq_getElem,
      List.getElem_map, hq, if_true]
    rw [softDeleteDoc, getField_setField_ne _ (by decide), getField_setField_self]
  · simp only [delete_document, updateManyCall, updateMany]
    rw [zip_self_map, List.filter_map, List.length_map]
    refine congrArg List.length (List.filter_congr fun d _ => ?_)
    by_cases hq : q d = true
    · simp only [Function.comp, hq, if_true, Bool.true_and]
      exact (decide_eq_decide.mpr ne_comm).symm
    · simp only [Bool.not_eq_true] at hq
      simp [Function.comp, hq]

/-- C2 (witness): soft-deleting the document with `userId = 1` from a
two-document collection marks it `isActive = False`. -/
theorem c2_witness :
    getField ((delete_document none
        [[("userId", Value.vInt 1), ("isActive", Value.vBool true)],
         [("userId", Value.vInt 2), ("isActive", Value.vBool true)]]
        (fun d => decide (getField d "userId" = some (Value.vInt 1))) 5).1.get
        ⟨0, by decide⟩) "isActive" = some (Value.vBool false) :=
  (c2_delete_document_soft_delete
      [[("userId", Value.vInt 1), ("isActive", Value.vBool true)],
       [("userId", Value.vInt 2), ("isActive", Value.vBool true)]]
      (fun d => decide (getField d "userId" = some (Value.vInt 1))) 5).2.1
    0 (by decide) (by decide) (by decide)

/-- C7: the frame property of `delete_document`: at every position, any
field other than `isActive` and `updatedAt` reads exactly as before,
and a document not matching the query is completely unchanged. -/
theorem c7_delete_document_frame (state : List Doc) (q : Doc → Bool) (now : Nat) :
    (∀ (i : Nat) (h : i < state.length)
        (h' : i < (delete_document none state q now).1.length) (k : String),
        k ≠ "isActive" → k ≠ "updatedAt" →
        getField ((delete_document none state q now).1.get ⟨i, h'⟩) k =
          getField (state.get ⟨i, h⟩) k)
    ∧ (∀ (i : Nat) (h : i < state.length)
        (h' : i < (delete_document none state q now).1.length),
        q (state.get ⟨i, h⟩) = false →
        (delete_document none state q now).1.get ⟨i, h'⟩ = state.get ⟨i, h⟩) := by
  refine ⟨fun i h h' k hk1 hk2 => ?_, fun i h h' hq => ?_⟩
  · simp only [delete_document, updateManyCall, updateMany, List.get_eq_getElem,
      List.getElem_map]
    by_cases hq : q (state.get ⟨i, h⟩) = true
    · rw [List.get_eq_getElem] at hq
      rw [if_pos hq, softDeleteDoc, getField_setField_ne _ hk2,
        getField_setField_ne _ hk1]
    · rw [List.get_eq_getElem] at hq
      rw [if_neg hq]
  · rw [List.get_eq_getElem] at hq
    simp only [delete_document, updateManyCall, updateMany, List.get_eq_getElem,
      List.getElem_map, hq]
    simp

/-- C7 (witness): after soft-deleting `userId = 1`, that document's
`userId` field is untouched and the non-matching document is unchanged. -/
theorem c7_witness :
    getField ((delete_document none
        [[("userId", Value.vInt 1), ("isActive", Value.vBool true)],
         [("userId", Value.vInt 2), ("isActive", Value.vBool true)]]
        (fun d => decide (getField d "userId" = some (Value.vInt 1))) 5).1.get
        ⟨0, by decide⟩) "userId" = getField
        [("userId", Value.vInt 1), ("isActive", Value.vBool true)] "userId"
    ∧ (delete_document none
        [[("userId", Value.vInt 1), ("isActive", Value.vBool true)],
         [("userId", Value.vInt 2), ("isActive", Value.vBool true)]]
        (fun d => decide (getField d "userId" = some (Value.vInt 1))) 5).1.get
        ⟨1, by decide⟩ = [("userId", Value.vInt 2), ("isActive", Value.vBool true)] :=
  ⟨(c7_delete_document_frame
      [[("userId", Value.vInt 1), ("isActive", Value.vBool true)],
       [("userId", Value.vInt 2), ("isActive", Value.vBool true)]]
      (fun d => decide (getField d "userId" = some (Value.vInt 1))) 5).1
    0 (by decide) (by decide) "userId" (by decide) (by decide),
   (c7_delete_document_frame
      [[("userId", Value.vInt 1), ("isActive", Value.vBool true)],
       [("userId", Value.vInt 2), ("isActive", Value.vBool true)]]
      (fun d => decide (getField d "userId" = some (Value.vInt 1))) 5).2
    1 (by decide) (by decide) (by decide)⟩

/-- C6: the fixed seed dataset is consistent with the unique indexes
created before insertion: the 32 user ids, the 32 enrollment ids and
their `(courseId, studentId)` pairs, and the lesson, assignment and
submission ids are pairwise distinct, so each seeding
`create_documents` call, run against the empty collection, inserts all
of its documents and returns an id per document. -/
theorem c6_seed_data_consistent :
    users_data_userIds.Nodup
    ∧ users_data_userIds.length = 32
    ∧ (enrollments_data.map (fun e => e.enrollmentId)).Nodup
    ∧ (enrollments_data.map (fun e => (e.courseId, e.studentId))).Nodup
    ∧ enrollments_data.length = 32
    ∧ lessons_data_lessonIds.Nodup
    ∧ assignments_data_assignmentIds.Nodup
    ∧ submissions_data_submissionIds.Nodup
    ∧ create_documents none singleIdSeedKeys (List.range 32) [] users_data_userIds
        = (users_data_userIds, (List.range 32).map toString)
    ∧ create_documents none enrollmentSeedKeys (List.range 32) [] enrollments_data
        = (enrollments_data, (List.range 32).map toString)
    ∧ create_documents none singleIdSeedKeys (List.range 40) [] lessons_data_lessonIds
        = (lessons_data_lessonIds, (List.range 40).map toString)
    ∧ create_documents none singleIdSeedKeys (List.range 15) []
        assignments_data_assignmentIds
        = (assignments_data_assignmentIds, (List.range 15).map toString)
    ∧ create_documents none singleIdSeedKeys (List.range 20) []
        submissions_data_submissionIds
        = (submissions_data_submissionIds, (List.range 20).map toString) := by
  refine ⟨by decide, by decide, by decide, by decide, by decide, by decide,
    by decide, by decide, by decide, by decide, by decide, by decide, by decide⟩

/-- A successful unique-checked insert preserves the uniqueness
invariant of every index of the collection. -/
theorem insertOneUnique_ok_preserves {α κ : Type} [DecidableEq κ]
    (keys : List (α → κ)) (state : List α) (d : α) (s2 : List α)
    (hinv : uniqueInvariant keys state)
    (hok : insertOneUnique keys state d = .ok s2) :
    uniqueInvariant keys s2 := by
  unfold insertOneUnique at hok
  by_cases hc : keys.any (fun k => state.any (fun e => k e = k d)) = true
  · rw [if_pos hc] at hok
    exact absurd hok (by simp)
  · rw [if_neg hc] at hok
    cases hok
    intro k hk
    rw [List.map_append]
    refine List.Nodup.append (hinv k hk) (List.nodup_singleton _) ?_
    intro a ha hb
    simp only [List.map_cons, List.map_nil, List.mem_singleton] at hb
    obtain ⟨e, he, hke⟩ := List.mem_map.mp ha
    exact hc (by
      simp only [List.any_eq_true, decide_eq_true_eq]
      exact ⟨k, hk, e, he, by rw [hke, hb]⟩)

/-- An insert that would duplicate a unique-index key fails with a
duplicate-key error. -/
theorem insertOneUnique_error_of_violation {α κ : Type} [DecidableEq κ]
    (keys : List (α → κ)) (state : List α) (d : α)
    (hviol : ∃ k ∈ keys, ∃ e ∈ state, k e = k d) :
    insertOneUnique keys state d = .error .duplicateKey := by
  obtain ⟨k, hk, e, he, hke⟩ := hviol
  have hc : keys.any (fun k => state.any (fun e => k e = k d)) = true := by
    simp only [List.any_eq_true, decide_eq_true_eq]
    exact ⟨k, hk, e, he, hke⟩
  simp [insertOneUnique, hc]

/-- An ordered `insert_many` preserves the uniqueness invariant whether
or not it runs to completion. -/
theorem insertManyUnique_preserves {α κ : Type} [DecidableEq κ]
    (keys : List (α → κ)) (docs : List α) :
    ∀ state, uniqueInvariant keys state →
      uniqueInvariant keys (insertManyUnique keys state docs).1 := by
  induction docs with
  | nil => intro s h; exact h
  | cons d rest ih =>
    intro s h
    simp only [insertManyUnique]
    cases hins : insertOneUnique keys s d with
    | ok s2 => exact ih s2 (insertOneUnique_ok_preserves keys s d s2 h hins)
    | error e => exact h

/-- The per-document `update_many` pass preserves the uniqueness
invariant of the whole collection (processed prefix plus remaining
suffix), whether it completes or stops at a would-be duplicate. -/
theorem updateManyUniqueAux_preserves {α κ : Type} [DecidableEq α] [DecidableEq κ]
    (keys : List (α → κ)) (q : α → Bool) (u : α → α) :
    ∀ (rest done : List α), uniqueInvariant keys (done ++ rest) →
      uniqueInvariant keys (updateManyUniqueAux keys q u done rest).1 := by
  intro rest
  induction rest with
  | nil => intro done h; simpa [updateManyUniqueAux] using h
  | cons d rest ih =>
    intro done h
    simp only [updateManyUniqueAux]
    by_cases hq : q d = true
    · rw [if_pos hq]
      by_cases hcheck : (decide (u d ≠ d) &&
          keys.any (fun k =>
            done.any (fun e => k e = k (u d)) ||
            rest.any (fun e => k e = k (u d)))) = true
      · rw [if_pos hcheck]
        exact h
      · rw [if_neg hcheck]
        refine ih (done ++ [u d]) ?_
        rw [List.append_assoc, List.singleton_append]
        by_cases hud : u d = d
        · rw [hud]
          exact h
        · have hany : keys.any (fun k =>
              done.any (fun e => k e = k (u d)) ||
              rest.any (fun e => k e = k (u d))) = false := by
            cases han : keys.any (fun k =>
                done.any (fun e => k e = k (u d)) ||
                rest.any (fun e => k e = k (u d))) with
            | false => rfl
            | true => exact absurd (by rw [han]; simp [hud]) hcheck
          intro k hk
          have hnod : ((done ++ d :: rest).map k).Nodup := h k hk
          rw [List.map_append, List.map_cons] at hnod ⊢
          rw [List.nodup_middle] at hnod ⊢
          rw [List.nodup_cons] at hnod ⊢
          refine ⟨?_, hnod.2⟩
          rw [List.any_eq_false] at hany
          have hkk := hany _ hk
          simp only [Bool.or_eq_true, List.any_eq_true, decide_eq_true_eq] at hkk
          push_neg at hkk
          intro hmem
          rcases List.mem_append.mp hmem with hmd | hmr
          · obtain ⟨e, he, hke⟩ := List.mem_map.mp hmd
            exact hkk.1 e he hke
          · obtain ⟨e, he, hke⟩ := List.mem_map.mp hmr
            exact hkk.2 e he hke
    · rw [if_neg hq]
      refine ih (done ++ [d]) ?_
      rw [List.append_assoc]
      exact h

/-- `update_many` against unique indexes preserves the uniqueness
invariant. -/
theorem updateManyUnique_preserves {α κ : Type} [DecidableEq α] [DecidableEq κ]
    (keys : List (α → κ)) (q : α → Bool) (u : α → α) (state : List α)
    (h : uniqueInvariant keys state) :
    uniqueInvariant keys (updateManyUnique keys q u state).1 :=
  updateManyUniqueAux_preserves keys q u state [] h

/-- C4: for each unique-index family created by the script — `userId`
on `user`, `enrollmentId` and the compound `(courseId, studentId)` on
`enrollment`, `lessonId` on `lesson`, `assignmentId` on `assignment`,
`submissionId` on `submission` — the uniqueness invariant is preserved
by every subsequent insert (single or bulk) and update, and an insert
that would violate one of the indexes fails with a duplicate-key
error. -/
theorem c4_unique_index_invariants :
    ∀ keys ∈ ([userIndexKeys, enrollmentIndexKeys, lessonIndexKeys,
        assignmentIndexKeys, submissionIndexKeys] :
        List (List (Doc → List Value))),
      ∀ (state : List Doc) (d : Doc) (docs : List Doc) (q : Doc → Bool)
        (u : Doc → Doc),
        (uniqueInvariant keys state → ∀ s2,
          insertOneUnique keys state d = Except.ok s2 → uniqueInvariant keys s2)
        ∧ ((∃ k ∈ keys, ∃ e ∈ state, k e = k d) →
            insertOneUnique keys state d = Except.error PyErr.duplicateKey)
        ∧ (uniqueInvariant keys state →
            uniqueInvariant keys (insertManyUnique keys state docs).1)
        ∧ (uniqueInvariant keys state →
            uniqueInvariant keys (updateManyUnique keys q u state).1) := by
  intro keys _ state d docs q u
  exact ⟨fun hinv s2 hok => insertOneUnique_ok_preserves keys state d s2 hinv hok,
    insertOneUnique_error_of_violation keys state d,
    fun hinv => insertManyUnique_preserves keys docs state hinv,
    fun hinv => updateManyUnique_preserves keys q u state hinv⟩

/-- C4 (witness): on the enrollment indexes, inserting a first
enrollment into the empty collection preserves the invariant, and
re-inserting a document with the same `enrollmentId` fails with a
duplicate-key error. -/
theorem c4_witness :
    uniqueInvariant enrollmentIndexKeys
      [[("enrollmentId", Value.vInt 1), ("courseId", Value.vInt 1),
        ("studentId", Value.vInt 1)]]
    ∧ insertOneUnique enrollmentIndexKeys
        [[("enrollmentId", Value.vInt 1), ("courseId", Value.vInt 1),
          ("studentId", Value.vInt 1)]]
        [("enrollmentId", Value.vInt 1), ("courseId", Value.vInt 2),
          ("studentId", Value.vInt 2)] = Except.error PyErr.duplicateKey :=
  ⟨(c4_unique_index_invariants enrollmentIndexKeys
      (List.mem_cons_of_mem _ (List.mem_cons_self _ _)) []
      [("enrollmentId", Value.vInt 1), ("courseId", Value.vInt 1),
        ("studentId", Value.vInt 1)] [] (fun _ => true) id).1
    (fun k _ => List.nodup_nil) _ rfl,
   (c4_unique_index_invariants enrollmentIndexKeys
      (List.mem_cons_of_mem _ (List.mem_cons_self _ _))
      [[("enrollmentId", Value.vInt 1), ("courseId", Value.vInt 1),
        ("studentId", Value.vInt 1)]]
      [("enrollmentId", Value.vInt 1), ("courseId", Value.vInt 2),
        ("studentId", Value.vInt 2)] [] (fun _ => true) id).2.1
    ⟨fun dd => [(getField dd "enrollmentId").getD .vNull], List.mem_cons_self _ _,
      [("enrollmentId", Value.vInt 1), ("courseId", Value.vInt 1),
        ("studentId", Value.vInt 1)], List.mem_cons_self _ _, by decide⟩⟩

/-- On a duplicate-free list, filtering for one element keeps exactly
one element when it occurs and none otherwise. -/
theorem length_filter_eq_of_nodup {κ : Type} [DecidableEq κ] (l : List κ)
    (hl : l.Nodup) (k : κ) :
    (l.filter fun x => decide (x = k)).length = if k ∈ l then 1 else 0 := by
  induction l with
  | nil => simp
  | cons a t ih =>
    rw [List.nodup_cons] at hl
    by_cases hak : a = k
    · subst hak
      rw [List.filter_cons_of_pos (by simp), List.length_cons, ih hl.2,
        if_neg hl.1, if_pos (List.mem_cons_self a t)]
    · rw [List.filter_cons_of_neg (by simp [hak]), ih hl.2]
      by_cases hkt : k ∈ t
      · rw [if_pos hkt, if_pos (List.mem_cons_of_mem a hkt)]
      · rw [if_neg hkt, if_neg (by
          rw [List.mem_cons]
          rintro (h | h)
          · exact hak h.symm
          · exact hkt h)]

/-- The descending sort permutes the `$group` output. -/
theorem sortedGroupAvg_perm {α κ : Type} [DecidableEq κ] (key : α → κ)
    (val : α → ℚ) (l : List α) :
    List.Perm (sortedGroupAvg key val l) (groupAvg key val l) :=
  List.perm_insertionSort byAvgDesc (groupAvg key val l)

/-- The pipeline output is sorted by average, largest first. -/
theorem sorted_sortedGroupAvg {α κ : Type} [DecidableEq κ] (key : α → κ)
    (val : α → ℚ) (l : List α) :
    List.Sorted (fun a b : κ × ℚ => b.2 ≤ a.2) (sortedGroupAvg key val l) :=
  List.sorted_insertionSort byAvgDesc (groupAvg key val l)

/-- Every pipeline output entry carries the `$avg` of the values of the
input documents with its key. -/
theorem mem_sortedGroupAvg {α κ : Type} [DecidableEq κ] {key : α → κ}
    {val : α → ℚ} {l : List α} {e : κ × ℚ}
    (he : e ∈ sortedGroupAvg key val l) :
    e.2 = avgOf ((l.filter fun a => key a = e.1).map val) := by
  have h2 : e ∈ groupAvg key val l := (sortedGroupAvg_perm key val l).mem_iff.mp he
  obtain ⟨k, hkmem, hke⟩ := List.mem_map.mp h2
  cases hke
  rfl

/-- The pipeline emits exactly one entry for each key occurring among
the input documents, and none for any other key. -/
theorem sortedGroupAvg_filter_length {α κ : Type} [DecidableEq κ] (key : α → κ)
    (val : α → ℚ) (l : List α) (k : κ) :
    ((sortedGroupAvg key val l).filter fun e => decide (e.1 = k)).length =
      if k ∈ l.map key then 1 else 0 := by
  have hperm := (sortedGroupAvg_perm key val l).filter (fun e => decide (e.1 = k))
  rw [hperm.length_eq]
  unfold groupAvg
  rw [List.filter_map, List.length_map]
  have h1 : List.filter ((fun e : κ × ℚ => decide (e.1 = k)) ∘ fun k0 =>
      (k0, avgOf ((l.filter fun a => key a = k0).map val))) (l.map key).dedup
      = List.filter (fun x => decide (x = k)) (l.map key).dedup :=
    List.filter_congr fun x _ => rfl
  rw [h1, length_filter_eq_of_nodup _ (List.nodup_dedup _) k]
  by_cases hkm : k ∈ l.map key
  · rw [if_pos (List.mem_dedup.mpr hkm), if_pos hkm]
  · rw [if_neg (fun hc => hkm (List.mem_dedup.mp hc)), if_neg hkm]

/-- C3: the student-performance pipeline produces exactly one entry per
`studentId` having at least one submission joined through one of their
enrollments (and none for any other student), its `averageGrade` is the
arithmetic mean of the grades of all submissions joined to that
student's enrollments, and the entries are ordered by `averageGrade`
non-increasingly. -/
theorem c3_student_performance_pipeline (enrs : List Enrollment)
    (subs : List Submission) :
    (∀ sid : Int,
      ((studentPerformancePipeline enrs subs).filter
        fun e => decide (e.1 = sid)).length =
        if joinedGrades enrs subs sid = [] then 0 else 1)
    ∧ (∀ e ∈ studentPerformancePipeline enrs subs,
        e.2 = (joinedGrades enrs subs e.1).sum /
          ((joinedGrades enrs subs e.1).length : ℚ))
    ∧ List.Sorted (fun a b : Int × ℚ => b.2 ≤ a.2)
        (studentPerformancePipeline enrs subs) := by
  refine ⟨fun sid => ?_, fun e he => ?_, sorted_sortedGroupAvg _ _ _⟩
  · rw [studentPerformancePipeline, sortedGroupAvg_filter_length]
    by_cases hmem : sid ∈ (joinedPairs enrs subs).map fun p => p.1.studentId
    · rw [if_pos hmem, if_neg ?_]
      obtain ⟨p, hp, hps⟩ := List.mem_map.mp hmem
      exact List.ne_nil_of_mem (List.mem_map_of_mem _
        (List.mem_filter.mpr ⟨hp, by simp [hps]⟩))
    · rw [if_neg hmem, if_pos ?_]
      rw [joinedGrades, List.map_eq_nil_iff, List.filter_eq_nil_iff]
      intro p hp hps
      rw [decide_eq_true_eq] at hps
      exact hmem (List.mem_map.mpr ⟨p, hp, hps⟩)
  · rw [mem_sortedGroupAvg he]
    rfl

/-- C3 (witness): one student with one enrollment and one joined
submission of grade 95 yields the single entry `(student, 95)`. -/
theorem c3_witness :
    ((10 : Int), (95 : ℚ)).2 = (joinedGrades [⟨1, 10⟩] [⟨1, 95⟩] ((10 : Int), (95 : ℚ)).1).sum /
      ((joinedGrades [⟨1, 10⟩] [⟨1, 95⟩] ((10 : Int), (95 : ℚ)).1).length : ℚ) :=
  (c3_student_performance_pipeline [⟨1, 10⟩] [⟨1, 95⟩]).2.1
    ((10 : Int), (95 : ℚ)) (by
      have h : studentPerformancePipeline [⟨1, 10⟩] [⟨1, 95⟩]
          = [((10 : Int), (95 : ℚ))] := by
        simp [studentPerformancePipeline, sortedGroupAvg, groupAvg,
          sortByAvgDesc, joinedPairs, lookupSubmissions, avgOf]
      rw [h]
      exact List.mem_cons_self _ _)

/-- C5: the course-rating pipeline produces exactly one group per
category occurring among the courses (and none for any other
category), its `averageRating` is the arithmetic mean of `reviewRate`
over the courses of that category, and the groups are ordered by
`averageRating` non-increasingly. -/
theorem c5_course_rating_pipeline (courses : List Course) :
    (∀ cat : String,
      ((courseRatingPipeline courses).filter fun e => decide (e.1 = cat)).length =
        if categoryRates courses cat = [] then 0 else 1)
    ∧ (∀ e ∈ courseRatingPipeline courses,
        e.2 = (categoryRates courses e.1).sum /
          ((categoryRates courses e.1).length : ℚ))
    ∧ List.Sorted (fun a b : String × ℚ => b.2 ≤ a.2)
        (courseRatingPipeline courses) := by
  refine ⟨fun cat => ?_, fun e he => ?_, sorted_sortedGroupAvg _ _ _⟩
  · rw [courseRatingPipeline, sortedGroupAvg_filter_length]
    by_cases hmem : cat ∈ courses.map Course.category
    · rw [if_pos hmem, if_neg ?_]
      obtain ⟨c, hc, hcc⟩ := List.mem_map.mp hmem
      exact List.ne_nil_of_mem (List.mem_map_of_mem _
        (List.mem_filter.mpr ⟨hc, by simp [hcc]⟩))
    · rw [if_neg hmem, if_pos ?_]
      rw [categoryRates, List.map_eq_nil_iff, List.filter_eq_nil_iff]
      intro c hc hcc
      rw [decide_eq_true_eq] at hcc
      exact hmem (List.mem_map.mpr ⟨c, hc, hcc⟩)
  · rw [mem_sortedGroupAvg he]
    rfl

/-- C5 (witness): a single Programming course rated 9/2 yields the
single group `("Programming", 9/2)`. -/
theorem c5_witness :
    ("Programming", (9 / 2 : ℚ)).2 =
      (categoryRates [⟨"Programming", 9 / 2⟩] ("Programming", (9 / 2 : ℚ)).1).sum /
        ((categoryRates [⟨"Programming", 9 / 2⟩]
          ("Programming", (9 / 2 : ℚ)).1).length : ℚ) :=
  (c5_course_rating_pipeline [⟨"Programming", 9 / 2⟩]).2.1
    ("Programming", (9 / 2 : ℚ)) (by
      have h : courseRatingPipeline [⟨"Programming", 9 / 2⟩]
          = [("Programming", (9 / 2 : ℚ))] := by
        simp [courseRatingPipeline, sortedGroupAvg, groupAvg,
          sortByAvgDesc, avgOf]
      rw [h]
      exact List.mem_cons_self _ _)

end EduHub
